import Mathlib

/-!
# Thread-local GL/EGL state queries of `libGLESv2/global_state.h`

A shallow embedding of the inline functions of `global_state.h`
(`GetGlobalContext`, `GetValidGlobalContext`, `DirtyContextIfNeeded`,
`GetContextLock`, `ANGLE_SCOPED_GLOBAL_LOCK`) over an explicit state, and the
properties of the context registry and of the lock policy proved about them.

Conventions.
* A `Context *` is an `Option Nat`: `none` is `nullptr`, `some a` is the address
  of a context object.
* The calling native thread is an explicit argument `self`.
* Calls into classes whose bodies are outside the header (`dirtyAllState`,
  the error channel, the mutex operations) append an `Event` to an observation
  log, so that the number and the order of such calls can be stated.
* The two preprocessor switches are fields of `BuildConfig`.
-/

namespace angle

/-- Identity of a native thread. -/
abbrev ThreadId := Nat

/-- How a call ends: it returns a value, the caller is suspended inside
`std::recursive_mutex::lock`, the call throws `std::system_error`, or the call
has no defined behaviour (a failed `ASSERT`, a null dereference). -/
inductive Outcome (α : Type) where
  | returns (a : α)
  | blocks
  | throws
  | undefined

/-- The state of `using GlobalMutex = std::recursive_mutex;`: the owning thread,
if any, its level of ownership, and the maximum number of levels of ownership
the implementation of the mutex allows, which the C++ standard leaves
unspecified and which never changes. -/
structure GlobalMutex where
  owner : Option ThreadId
  count : Nat
  maxLevel : Nat
deriving DecidableEq

/-- The constant `constexpr size_t kAndroidOpenGLTlsSlot = 3;`. -/
def kAndroidOpenGLTlsSlot : Nat := 3

/-- The member `std::recursive_mutex::lock()` called by thread `self`: a free mutex is
taken at level one, the owner gains one more level unless it is at the maximum
level already, in which case `std::system_error` is thrown and the mutex is
left as it was, and any other caller blocks. -/
def GlobalMutex.lock (self : ThreadId) (m : GlobalMutex) : Outcome GlobalMutex :=
  match m.owner with
  | none => .returns { m with owner := some self, count := 1 }
  | some o =>
    if o = self then
      if m.count < m.maxLevel then .returns { m with count := m.count + 1 }
      else .throws
    else .blocks

/-- The member `std::recursive_mutex::unlock()` called by thread `self`: the owner
gives up one level and the mutex becomes free with the last one.  Unlocking a
mutex the caller does not own has no defined behaviour (`none`). -/
def GlobalMutex.unlock (self : ThreadId) (m : GlobalMutex) : Option GlobalMutex :=
  match m.owner with
  | none => none
  | some o =>
    if o = self then
      if m.count ≤ 1 then some { m with owner := none, count := 0 }
      else some { m with count := m.count - 1 }
    else none

/-- The preprocessor configuration the header is compiled under. -/
structure BuildConfig where
  ANGLE_PLATFORM_ANDROID : Bool
  ANGLE_FORCE_CONTEXT_CHECK_EVERY_CALL : Bool
deriving DecidableEq

end angle

namespace gl

/-- A pointer `Context *`; `none` is the null pointer. -/
abbrev ContextPtr := Option Nat

/-- Modelled from the spec: `libANGLE/Context.h` is not part of the sources.  A
context exposes `isShared()` and `isContextLost()`; its `dirtyAllState()` and its
error channel are observed through the log of the state. -/
structure Context where
  isShared : Bool
  isContextLost : Bool
deriving DecidableEq

end gl

namespace egl

/-- Modelled from the spec: `libANGLE/Thread.h` is not part of the sources.  The
thread session object owns the authoritative bound context of its thread,
read through `getContext()`. -/
structure Thread where
  mContext : gl.ContextPtr
deriving DecidableEq

/-- The member `Thread::getContext()`. -/
def Thread.getContext (th : Thread) : gl.ContextPtr := th.mContext

end egl

namespace angle

/-- Calls that leave the header, in the order they happen: the mutex operations,
`Context::dirtyAllState()`, an error recorded on a context, and one partial
effect of the API operation a thread performs on a context. -/
inductive Event where
  | lock (t : ThreadId)
  | unlock (t : ThreadId)
  | dirtyAllState (c : Nat)
  | validationError (c : Nat)
  | operation (t : ThreadId) (c : Nat)
deriving DecidableEq

/-- The thread-local variables of one native thread: `egl::gCurrentThread`,
`gl::gCurrentValidContext` and the bionic TLS area that
`ANGLE_ANDROID_GET_GL_TLS()` points to (a slot index gives the pointer stored
there). -/
structure ThreadLocal where
  gCurrentThread : Option egl.Thread
  gCurrentValidContext : gl.ContextPtr
  tls : Nat → gl.ContextPtr

/-- The process state the header reads and writes. -/
structure State where
  gUseAndroidOpenGLTlsSlot : Bool
  globalMutex : GlobalMutex
  globalLastContext : gl.ContextPtr
  contexts : Nat → gl.Context
  threadLocal : ThreadId → ThreadLocal
  log : List Event

/-- The value a returning call produced. -/
def Outcome.value {α β : Type} : Outcome (α × β) → Option α
  | .returns p => some p.1
  | .blocks => none
  | .throws => none
  | .undefined => none

/-- The state a returning call left. -/
def Outcome.state {α β : Type} : Outcome (α × β) → Option β
  | .returns p => some p.2
  | .blocks => none
  | .throws => none
  | .undefined => none

/-- A `std::unique_lock<angle::GlobalMutex>`: it either owns one level of the
global mutex or is empty. -/
structure UniqueLock where
  owns : Bool
deriving DecidableEq

end angle

namespace egl

open angle

/-- The accessor `angle::GlobalMutex &GetGlobalMutex();`. -/
def GetGlobalMutex (s : State) : GlobalMutex := s.globalMutex

/-- The accessor `gl::Context *GetGlobalLastContext();`. -/
def GetGlobalLastContext (s : State) : gl.ContextPtr := s.globalLastContext

/-- The setter `void SetGlobalLastContext(gl::Context *context);`. -/
def SetGlobalLastContext (context : gl.ContextPtr) (s : State) : State :=
  { s with globalLastContext := context }

end egl

namespace angle

/-- Locking `egl::GetGlobalMutex()` on behalf of `self`, as the constructors of
`std::unique_lock` and `std::lock_guard` do; an exception of the mutex
propagates. -/
def lockGlobalMutex (self : ThreadId) (s : State) : Outcome State :=
  match (egl.GetGlobalMutex s).lock self with
  | .returns m => .returns { s with globalMutex := m, log := s.log ++ [Event.lock self] }
  | .blocks => .blocks
  | .throws => .throws
  | .undefined => .undefined

/-- Unlocking `egl::GetGlobalMutex()` on behalf of `self`, as the destructors of
`std::unique_lock` and `std::lock_guard` do. -/
def unlockGlobalMutex (self : ThreadId) (s : State) : Option State :=
  match (egl.GetGlobalMutex s).unlock self with
  | none => none
  | some m => some { s with globalMutex := m, log := s.log ++ [Event.unlock self] }

/-- The constructor `std::unique_lock<angle::GlobalMutex>(egl::GetGlobalMutex())`. -/
def UniqueLock.acquire (self : ThreadId) (s : State) : Outcome (UniqueLock × State) :=
  match lockGlobalMutex self s with
  | .returns s1 => .returns ({ owns := true }, s1)
  | .blocks => .blocks
  | .throws => .throws
  | .undefined => .undefined

/-- The constructor `std::unique_lock<angle::GlobalMutex>()`: no mutex, nothing owned. -/
def UniqueLock.empty : UniqueLock := { owns := false }

/-- The destructor of `std::unique_lock`: an owning guard unlocks, an empty one
does nothing. -/
def UniqueLock.destroy (self : ThreadId) (g : UniqueLock) (s : State) : Outcome State :=
  if g.owns then
    match unlockGlobalMutex self s with
    | none => .undefined
    | some s1 => .returns s1
  else .returns s

/-- Entering the scope of the macro `ANGLE_SCOPED_GLOBAL_LOCK()`, which declares
a `std::lock_guard<angle::GlobalMutex>` on `egl::GetGlobalMutex()`. -/
def ANGLE_SCOPED_GLOBAL_LOCK (self : ThreadId) (s : State) : Outcome State :=
  lockGlobalMutex self s

/-- Leaving the scope of `ANGLE_SCOPED_GLOBAL_LOCK()`: the destructor of the
`std::lock_guard`. -/
def scopedGlobalLockExit (self : ThreadId) (s : State) : Outcome State :=
  match unlockGlobalMutex self s with
  | none => .undefined
  | some s1 => .returns s1

end angle

namespace gl

open angle

/-- The member `Context::dirtyAllState()` called on the context at address `a`. -/
def dirtyAllState (a : Nat) (s : State) : State :=
  { s with log := s.log ++ [Event.dirtyAllState a] }

/-- The function `ANGLE_INLINE Context *GetGlobalContext()`: the reserved TLS slot on
the Android fast path, otherwise the context of the thread session, whose
presence is asserted. -/
def GetGlobalContext (cfg : BuildConfig) (self : ThreadId) (s : State) :
    Outcome (ContextPtr × State) :=
  if cfg.ANGLE_PLATFORM_ANDROID && s.gUseAndroidOpenGLTlsSlot then
    .returns ((s.threadLocal self).tls kAndroidOpenGLTlsSlot, s)
  else
    match (s.threadLocal self).gCurrentThread with
    | none => .undefined
    | some th => .returns (th.getContext, s)

/-- The function `ANGLE_INLINE Context *GetValidGlobalContext()`. -/
def GetValidGlobalContext (cfg : BuildConfig) (self : ThreadId) (s : State) :
    Outcome (ContextPtr × State) :=
  if cfg.ANGLE_PLATFORM_ANDROID && s.gUseAndroidOpenGLTlsSlot then
    match (s.threadLocal self).tls kAndroidOpenGLTlsSlot with
    | some a =>
      if !(s.contexts a).isContextLost then .returns (some a, s)
      else .returns ((s.threadLocal self).gCurrentValidContext, s)
    | none => .returns ((s.threadLocal self).gCurrentValidContext, s)
  else
    .returns ((s.threadLocal self).gCurrentValidContext, s)

/-- Modelled from the spec: the body of `GenerateContextLostErrorOnContext` is in
`global_state.cpp`, which is not part of the sources; the header only says
"Generate a context lost error on the context if it is non-null and lost."
It is a no-op for a null or not-lost context and otherwise records one error
on that context through its own channel. -/
def GenerateContextLostErrorOnContext (context : ContextPtr) (s : State) : Outcome State :=
  match context with
  | none => .returns s
  | some a =>
    if (s.contexts a).isContextLost then
      .returns { s with log := s.log ++ [Event.validationError a] }
    else .returns s

/-- The function `static ANGLE_INLINE void DirtyContextIfNeeded(Context *context)`,
compiled only under `ANGLE_FORCE_CONTEXT_CHECK_EVERY_CALL`. -/
def DirtyContextIfNeeded (context : ContextPtr) (s : State) : State :=
  match context with
  | none => s
  | some a =>
    if context ≠ egl.GetGlobalLastContext s then
      egl.SetGlobalLastContext context (dirtyAllState a s)
    else s

/-- The function
`ANGLE_INLINE std::unique_lock<angle::GlobalMutex> GetContextLock(Context *context)`.
Without the always-check switch it dereferences `context` unconditionally. -/
def GetContextLock (cfg : BuildConfig) (self : ThreadId) (context : ContextPtr) (s : State) :
    Outcome (UniqueLock × State) :=
  if cfg.ANGLE_FORCE_CONTEXT_CHECK_EVERY_CALL then
    match UniqueLock.acquire self s with
    | .returns (lock, s1) => .returns (lock, DirtyContextIfNeeded context s1)
    | .blocks => .blocks
    | .throws => .throws
    | .undefined => .undefined
  else
    match context with
    | none => .undefined
    | some a =>
      if (s.contexts a).isShared then UniqueLock.acquire self s
      else .returns (UniqueLock.empty, s)

end gl

/-! ## Vocabulary of the properties -/

namespace angle

/-- The context bound on thread `self`: the one its thread session holds, and
none when the thread has no session. -/
def boundContext (self : ThreadId) (s : State) : gl.ContextPtr :=
  match (s.threadLocal self).gCurrentThread with
  | none => none
  | some th => th.getContext

/-- Whether the context a pointer designates reports lost; the null pointer
designates none. -/
def reportsLost (s : State) : gl.ContextPtr → Bool
  | none => false
  | some a => (s.contexts a).isContextLost

/-- The content of the reserved TLS slot of thread `self`. -/
def reservedSlot (self : ThreadId) (s : State) : gl.ContextPtr :=
  (s.threadLocal self).tls kAndroidOpenGLTlsSlot

/-- Whether the fast path through the reserved TLS slot is taken. -/
def fastPath (cfg : BuildConfig) (s : State) : Bool :=
  cfg.ANGLE_PLATFORM_ANDROID && s.gUseAndroidOpenGLTlsSlot

/-- The state with the boot-time flag `gUseAndroidOpenGLTlsSlot` set to `b`. -/
def withFastPathFlag (b : Bool) (s : State) : State :=
  { s with gUseAndroidOpenGLTlsSlot := b }

/-- A context table in which the odd addresses are shared contexts and the
addresses from 100 on are lost contexts. -/
def sampleContexts (a : Nat) : gl.Context :=
  { isShared := a % 2 == 1, isContextLost := decide (100 ≤ a) }

/-- A thread-local block given by its session, its valid-context mirror and
the content of every TLS slot. -/
def sampleThreadLocal (session : Option egl.Thread) (valid slot : gl.ContextPtr) : ThreadLocal :=
  { gCurrentThread := session, gCurrentValidContext := valid, tls := fun _ => slot }

/-- The maximum level of ownership used in the samples: the recursion count of
the mutex is an `unsigned int`. -/
def sampleMaxLevel : Nat := 4294967295

/-- A state in which every thread has the same thread-local block, the mutex
is free, no context was active yet and nothing was logged. -/
def sampleState (flag : Bool) (tl : ThreadLocal) : State :=
  { gUseAndroidOpenGLTlsSlot := flag
    globalMutex := { owner := none, count := 0, maxLevel := sampleMaxLevel }
    globalLastContext := none
    contexts := sampleContexts
    threadLocal := fun _ => tl
    log := [] }

/-- The Android build without the always-check switch. -/
def androidConfig : BuildConfig :=
  { ANGLE_PLATFORM_ANDROID := true, ANGLE_FORCE_CONTEXT_CHECK_EVERY_CALL := false }

/-- The Android build with the always-check switch. -/
def alwaysCheckConfig : BuildConfig :=
  { ANGLE_PLATFORM_ANDROID := true, ANGLE_FORCE_CONTEXT_CHECK_EVERY_CALL := true }

end angle

/-! ## Entry points and schedules -/

namespace angle

/-- Whether `GetContextLock` takes the global mutex for `context`: always under
the always-check switch, otherwise for a shared context only. -/
def requiresLock (cfg : BuildConfig) (context : gl.ContextPtr) (s : State) : Bool :=
  cfg.ANGLE_FORCE_CONTEXT_CHECK_EVERY_CALL ||
    (match context with
     | none => false
     | some a => (s.contexts a).isShared)

/-- One API entry on `context` by thread `self`: the guard of `GetContextLock`
lives until the end of the call scope, where its destructor runs. -/
def entryPoint (cfg : BuildConfig) (self : ThreadId) (context : gl.ContextPtr) (s : State) :
    Outcome State :=
  match gl.GetContextLock cfg self context s with
  | .returns (lock, s1) => lock.destroy self s1
  | .blocks => .blocks
  | .throws => .throws
  | .undefined => .undefined

/-- A schedule of API entries, each given by its thread and its context, run one
after the other. -/
def runEntryPoints (cfg : BuildConfig) : List (ThreadId × gl.ContextPtr) → State → Outcome State
  | [], s => .returns s
  | (t, c) :: rest, s =>
    match entryPoint cfg t c s with
    | .returns s1 => runEntryPoints cfg rest s1
    | .blocks => .blocks
    | .throws => .throws
    | .undefined => .undefined

/-- The number of `dirtyAllState()` calls made so far on the context at `a`. -/
def dirtyCalls (a : Nat) (s : State) : Nat :=
  s.log.count (Event.dirtyAllState a)

/-- The number of `dirtyAllState()` calls on the context at `a` once a schedule
has run to its end. -/
def dirtyCallsAfter (cfg : BuildConfig) (schedule : List (ThreadId × gl.ContextPtr)) (a : Nat)
    (s : State) : Option Nat :=
  match runEntryPoints cfg schedule s with
  | .returns s1 => some (dirtyCalls a s1)
  | .blocks => none
  | .throws => none
  | .undefined => none

/-- The number of errors recorded so far on the context at `a`. -/
def recordedErrors (a : Nat) (s : State) : Nat :=
  s.log.count (Event.validationError a)

end angle

/-! ## Comparing states -/

namespace angle

/-- The dirty-on-switch events a call on `context` makes when `last` is the
recorded last context: one `dirtyAllState()` on a non-null context that differs
from the record, none otherwise. -/
def dirtyOnSwitch (context last : gl.ContextPtr) : List Event :=
  match context with
  | none => []
  | some a => if context ≠ last then [Event.dirtyAllState a] else []

/-- The state with the global mutex in state `m`. -/
def withGlobalMutex (m : GlobalMutex) (s : State) : State :=
  { s with globalMutex := m }

end angle

/-! ## Threads running side by side -/

namespace angle

/-- What a thread does next: it enters an API call on the context at `a` by
taking the guard of `GetContextLock`, it performs one partial effect of its
call on the context at `a`, or it leaves its innermost call, which destroys the
guard taken there. -/
inductive Action where
  | enter (t : ThreadId) (a : Nat)
  | mutate (t : ThreadId) (a : Nat)
  | leave (t : ThreadId)
deriving DecidableEq

/-- The process state together with the guards each thread currently holds,
innermost first, each with the context it was taken for. -/
structure System where
  state : State
  guards : ThreadId → List (Nat × UniqueLock)

/-- One partial effect of thread `t` on the context at `a`. -/
def operate (t : ThreadId) (a : Nat) (s : State) : State :=
  { s with log := s.log ++ [Event.operation t a] }

/-- Whether thread `t` is inside a call bracketed by a guard taken for the
context at `a`. -/
def System.inCall (sys : System) (t : ThreadId) (a : Nat) : Bool :=
  (sys.guards t).any (fun p => p.1 == a)

/-- One step of one thread; `none` when the thread cannot take it now: a
`GetContextLock` that blocks or throws, an effect outside the bracket of a
guard, a scope end without a scope. -/
def System.step (cfg : BuildConfig) (sys : System) : Action → Option System
  | .enter t a =>
    match gl.GetContextLock cfg t (some a) sys.state with
    | .returns (g, s1) =>
      some { state := s1, guards := Function.update sys.guards t ((a, g) :: sys.guards t) }
    | .blocks => none
    | .throws => none
    | .undefined => none
  | .mutate t a =>
    if sys.inCall t a then some { sys with state := operate t a sys.state } else none
  | .leave t =>
    match sys.guards t with
    | [] => none
    | (_, g) :: rest =>
      match g.destroy t sys.state with
      | .returns s1 => some { state := s1, guards := Function.update sys.guards t rest }
      | .blocks => none
      | .throws => none
      | .undefined => none

/-- An interleaving of steps of any threads, run from a system. -/
def System.run (cfg : BuildConfig) : List Action → System → Option System
  | [], sys => some sys
  | act :: rest, sys =>
    match sys.step cfg act with
    | none => none
    | some sys1 => System.run cfg rest sys1

/-- A system at rest: the global mutex is free and no thread holds a guard. -/
def System.atRest (sys : System) : Prop :=
  sys.state.globalMutex.owner = none ∧ ∀ t, sys.guards t = []

/-- The system at rest over the sample state. -/
def sampleSystem : System :=
  { state := sampleState false (sampleThreadLocal none none none), guards := fun _ => [] }

/-- The sample system after thread 1 entered a call on the shared context 3 under
the shared-only policy: it owns the mutex at level 1 and holds one owning
guard. -/
def sampleSystemInCall : System :=
  { state :=
      { sampleState false (sampleThreadLocal none none none) with
        globalMutex := { owner := some 1, count := 1, maxLevel := sampleMaxLevel }
        log := [Event.lock 1] }
    guards := Function.update (fun _ => []) 1 [(3, { owns := true })] }

/-- What ties the guards held by the threads to the state of the global mutex:
an owning guard is held by the owner of the mutex only, a guard taken for a
context that requires the lock owns, and the level of the mutex is the number
of owning guards of its owner. -/
structure System.Consistent (cfg : BuildConfig) (sys : System) : Prop where
  owner_of_owning : ∀ t p, p ∈ sys.guards t → p.2.owns = true →
    sys.state.globalMutex.owner = some t
  owning_of_required : ∀ t p, p ∈ sys.guards t →
    requiresLock cfg (some p.1) sys.state = true → p.2.owns = true
  count_eq : ∀ o, sys.state.globalMutex.owner = some o →
    sys.state.globalMutex.count = ((sys.guards o).filter (fun p => p.2.owns)).length

end angle

/-! ## The context registry -/

namespace angle

/-- C1, as stated, fails: with the fast path off, a session without context and
a stale `gCurrentValidContext`, and with the fast path on, a session without
context and a live context in the reserved slot, `GetValidGlobalContext` returns a non-null
context although no context is bound on the thread. -/
theorem GetValidGlobalContext_null_iff_unbound_or_lost_fails :
    (¬ ((gl.GetValidGlobalContext androidConfig 0
            (sampleState false (sampleThreadLocal (some ⟨none⟩) (some 7) none))).value = some none ↔
          (boundContext 0 (sampleState false (sampleThreadLocal (some ⟨none⟩) (some 7) none)) = none ∨
            reportsLost (sampleState false (sampleThreadLocal (some ⟨none⟩) (some 7) none))
              (boundContext 0 (sampleState false (sampleThreadLocal (some ⟨none⟩) (some 7) none)))
              = true))) ∧
    (¬ ((gl.GetValidGlobalContext androidConfig 0
            (sampleState true (sampleThreadLocal (some ⟨none⟩) none (some 7)))).value = some none ↔
          (boundContext 0 (sampleState true (sampleThreadLocal (some ⟨none⟩) none (some 7))) = none ∨
            reportsLost (sampleState true (sampleThreadLocal (some ⟨none⟩) none (some 7)))
              (boundContext 0 (sampleState true (sampleThreadLocal (some ⟨none⟩) none (some 7))))
              = true))) := by
  constructor <;> decide

/-- C1, amended: in every thread state whose `gCurrentValidContext` holds the
bound context when one is bound and not lost and null otherwise, and whose
reserved TLS slot holds the bound context whenever the fast path is taken,
`GetValidGlobalContext` returns (leaving the state as it was) null if and only
if no context is bound or the bound context reports lost; a non-null result is
the bound context, and that context is not lost. -/
theorem GetValidGlobalContext_null_iff_of_mirrors (cfg : BuildConfig) (self : ThreadId)
    (s : State)
    (hvalid : (s.threadLocal self).gCurrentValidContext =
      if reportsLost s (boundContext self s) = true then none else boundContext self s)
    (hslot : fastPath cfg s = true → reservedSlot self s = boundContext self s) :
    ∃ r, gl.GetValidGlobalContext cfg self s = Outcome.returns (r, s) ∧
      (r = none ↔ (boundContext self s = none ∨ reportsLost s (boundContext self s) = true)) ∧
      (r ≠ none → r = boundContext self s ∧ reportsLost s r = false) := by
  unfold gl.GetValidGlobalContext
  unfold fastPath at hslot
  by_cases hf : (cfg.ANGLE_PLATFORM_ANDROID && s.gUseAndroidOpenGLTlsSlot) = true
  · have hs := hslot hf
    unfold reservedSlot at hs
    simp only [hf, if_true, hs, hvalid]
    cases hb : boundContext self s with
    | none => exact ⟨none, by simp [reportsLost]⟩
    | some a =>
      cases hl : (s.contexts a).isContextLost with
      | false => exact ⟨some a, by simp [reportsLost, hl]⟩
      | true => exact ⟨none, by simp [reportsLost, hl]⟩
  · simp only [hf, hvalid]
    cases hb : boundContext self s with
    | none => exact ⟨none, by simp [reportsLost]⟩
    | some a =>
      cases hl : (s.contexts a).isContextLost with
      | false => exact ⟨some a, by simp [reportsLost, hl]⟩
      | true => exact ⟨none, by simp [reportsLost, hl]⟩

/-- C1, amended, at a thread whose session, valid-context mirror and reserved
slot all hold the live context 8. -/
theorem GetValidGlobalContext_null_iff_of_mirrors_witness :
    ((sampleState true (sampleThreadLocal (some ⟨some 8⟩) (some 8) (some 8))).threadLocal 0
        ).gCurrentValidContext =
      (if reportsLost (sampleState true (sampleThreadLocal (some ⟨some 8⟩) (some 8) (some 8)))
          (boundContext 0 (sampleState true (sampleThreadLocal (some ⟨some 8⟩) (some 8) (some 8))))
          = true
        then none
        else boundContext 0 (sampleState true (sampleThreadLocal (some ⟨some 8⟩) (some 8) (some 8))))
    ∧ ∃ r, gl.GetValidGlobalContext androidConfig 0
          (sampleState true (sampleThreadLocal (some ⟨some 8⟩) (some 8) (some 8))) =
        Outcome.returns (r, sampleState true (sampleThreadLocal (some ⟨some 8⟩) (some 8) (some 8))) ∧
      (r = none ↔
        (boundContext 0 (sampleState true (sampleThreadLocal (some ⟨some 8⟩) (some 8) (some 8))) = none ∨
          reportsLost (sampleState true (sampleThreadLocal (some ⟨some 8⟩) (some 8) (some 8)))
            (boundContext 0 (sampleState true (sampleThreadLocal (some ⟨some 8⟩) (some 8) (some 8))))
            = true)) ∧
      (r ≠ none →
        r = boundContext 0 (sampleState true (sampleThreadLocal (some ⟨some 8⟩) (some 8) (some 8))) ∧
        reportsLost (sampleState true (sampleThreadLocal (some ⟨some 8⟩) (some 8) (some 8))) r = false) :=
  ⟨by decide,
   GetValidGlobalContext_null_iff_of_mirrors androidConfig 0
     (sampleState true (sampleThreadLocal (some ⟨some 8⟩) (some 8) (some 8)))
     (by decide) (by decide)⟩

/-- C5, as stated, fails: the reserved slot and the session both hold the live
context 7 while `gCurrentValidContext` is null; `GetValidGlobalContext` returns
context 7 with the flag on and null with the flag off. -/
theorem GetValidGlobalContext_flag_on_off_differ :
    reservedSlot 0 (sampleState true (sampleThreadLocal (some ⟨some 7⟩) none (some 7))) =
      boundContext 0 (sampleState true (sampleThreadLocal (some ⟨some 7⟩) none (some 7))) ∧
    (gl.GetValidGlobalContext androidConfig 0
        (withFastPathFlag true
          (sampleState true (sampleThreadLocal (some ⟨some 7⟩) none (some 7))))).value
      = some (some 7) ∧
    (gl.GetValidGlobalContext androidConfig 0
        (withFastPathFlag false
          (sampleState true (sampleThreadLocal (some ⟨some 7⟩) none (some 7))))).value
      = some none := by
  decide

/-- C5, amended: in every thread state with a thread session whose bound
context is also the content of the reserved TLS slot, and whose
`gCurrentValidContext` holds the bound context whenever that context is
non-null and not lost, `GetGlobalContext` returns the same context with
`gUseAndroidOpenGLTlsSlot` on as with it off, and so does
`GetValidGlobalContext`; each call leaves the state as it was. -/
theorem fast_path_flag_equivalence (cfg : BuildConfig) (self : ThreadId) (s : State)
    (th : egl.Thread)
    (hsession : (s.threadLocal self).gCurrentThread = some th)
    (hslot : reservedSlot self s = th.getContext)
    (hvalid : ∀ a, th.getContext = some a → (s.contexts a).isContextLost = false →
      (s.threadLocal self).gCurrentValidContext = some a) :
    (∃ c, gl.GetGlobalContext cfg self (withFastPathFlag true s) =
          Outcome.returns (c, withFastPathFlag true s) ∧
        gl.GetGlobalContext cfg self (withFastPathFlag false s) =
          Outcome.returns (c, withFastPathFlag false s)) ∧
    (∃ v, gl.GetValidGlobalContext cfg self (withFastPathFlag true s) =
          Outcome.returns (v, withFastPathFlag true s) ∧
        gl.GetValidGlobalContext cfg self (withFastPathFlag false s) =
          Outcome.returns (v, withFastPathFlag false s)) := by
  unfold reservedSlot at hslot
  constructor
  · refine ⟨th.getContext, ?_, ?_⟩
    · cases hA : cfg.ANGLE_PLATFORM_ANDROID <;>
        simp [gl.GetGlobalContext, withFastPathFlag, hA, hsession, hslot]
    · simp [gl.GetGlobalContext, withFastPathFlag, hsession]
  · cases hA : cfg.ANGLE_PLATFORM_ANDROID
    · exact ⟨(s.threadLocal self).gCurrentValidContext,
        by simp [gl.GetValidGlobalContext, withFastPathFlag, hA],
        by simp [gl.GetValidGlobalContext, withFastPathFlag, hA]⟩
    · refine ⟨(s.threadLocal self).gCurrentValidContext, ?_, ?_⟩
      · cases hc : th.getContext with
        | none =>
          rw [hc] at hslot
          simp [gl.GetValidGlobalContext, withFastPathFlag, hA, hslot]
        | some a =>
          rw [hc] at hslot
          cases hl : (s.contexts a).isContextLost with
          | false =>
            have hv := hvalid a hc hl
            simp [gl.GetValidGlobalContext, withFastPathFlag, hA, hslot, hl, hv]
          | true =>
            simp [gl.GetValidGlobalContext, withFastPathFlag, hA, hslot, hl]
      · simp [gl.GetValidGlobalContext, withFastPathFlag, hA]

/-- C5, amended, at a thread whose session, reserved slot and valid-context
mirror all hold the live context 8. -/
theorem fast_path_flag_equivalence_witness :
    (∃ c, gl.GetGlobalContext androidConfig 0
            (withFastPathFlag true
              (sampleState true (sampleThreadLocal (some ⟨some 8⟩) (some 8) (some 8)))) =
          Outcome.returns (c, withFastPathFlag true
              (sampleState true (sampleThreadLocal (some ⟨some 8⟩) (some 8) (some 8)))) ∧
        gl.GetGlobalContext androidConfig 0
            (withFastPathFlag false
              (sampleState true (sampleThreadLocal (some ⟨some 8⟩) (some 8) (some 8)))) =
          Outcome.returns (c, withFastPathFlag false
              (sampleState true (sampleThreadLocal (some ⟨some 8⟩) (some 8) (some 8))))) ∧
    (∃ v, gl.GetValidGlobalContext androidConfig 0
            (withFastPathFlag true
              (sampleState true (sampleThreadLocal (some ⟨some 8⟩) (some 8) (some 8)))) =
          Outcome.returns (v, withFastPathFlag true
              (sampleState true (sampleThreadLocal (some ⟨some 8⟩) (some 8) (some 8)))) ∧
        gl.GetValidGlobalContext androidConfig 0
            (withFastPathFlag false
              (sampleState true (sampleThreadLocal (some ⟨some 8⟩) (some 8) (some 8)))) =
          Outcome.returns (v, withFastPathFlag false
              (sampleState true (sampleThreadLocal (some ⟨some 8⟩) (some 8) (some 8))))) :=
  fast_path_flag_equivalence androidConfig 0
    (sampleState true (sampleThreadLocal (some ⟨some 8⟩) (some 8) (some 8))) ⟨some 8⟩
    rfl rfl (by intro a h _; cases h; rfl)

/-- C7, as stated, fails: on the fast path, with a session bound to context 1
and context 2 in the reserved slot, `GetGlobalContext` returns context 2. -/
theorem GetGlobalContext_returns_slot_not_bound :
    ((sampleState true (sampleThreadLocal (some ⟨some 1⟩) (some 1) (some 2))).threadLocal 0
        ).gCurrentThread = some ⟨some 1⟩ ∧
    (gl.GetGlobalContext androidConfig 0
        (sampleState true (sampleThreadLocal (some ⟨some 1⟩) (some 1) (some 2)))).value
      = some (some 2) ∧
    (gl.GetGlobalContext androidConfig 0
        (sampleState true (sampleThreadLocal (some ⟨some 1⟩) (some 1) (some 2)))).value
      ≠ some (boundContext 0
          (sampleState true (sampleThreadLocal (some ⟨some 1⟩) (some 1) (some 2)))) := by
  decide

/-- C7, amended: in every thread state with a thread session present whose
reserved TLS slot holds the bound context whenever the fast path is taken,
`GetGlobalContext` returns exactly the context bound on the calling thread,
lost or null as it may be, and leaves the whole state unchanged. -/
theorem GetGlobalContext_returns_bound (cfg : BuildConfig) (self : ThreadId) (s : State)
    (th : egl.Thread)
    (hsession : (s.threadLocal self).gCurrentThread = some th)
    (hslot : fastPath cfg s = true → reservedSlot self s = th.getContext) :
    gl.GetGlobalContext cfg self s = Outcome.returns (th.getContext, s) ∧
    boundContext self s = th.getContext := by
  unfold fastPath reservedSlot at hslot
  constructor
  · unfold gl.GetGlobalContext
    by_cases hf : (cfg.ANGLE_PLATFORM_ANDROID && s.gUseAndroidOpenGLTlsSlot) = true
    · simp only [hf, if_true, hslot hf]
    · simp only [hf, hsession]
      rfl
  · simp [boundContext, hsession]

/-- C7, amended, at a thread on the fast path whose session and reserved slot
both hold the lost context 100: the lost context is returned as is. -/
theorem GetGlobalContext_returns_bound_witness :
    reportsLost (sampleState true (sampleThreadLocal (some ⟨some 100⟩) none (some 100)))
        (some 100) = true ∧
    gl.GetGlobalContext androidConfig 0
        (sampleState true (sampleThreadLocal (some ⟨some 100⟩) none (some 100))) =
      Outcome.returns ((egl.Thread.mk (some 100)).getContext,
        sampleState true (sampleThreadLocal (some ⟨some 100⟩) none (some 100))) ∧
    boundContext 0 (sampleState true (sampleThreadLocal (some ⟨some 100⟩) none (some 100))) =
      (egl.Thread.mk (some 100)).getContext :=
  ⟨by decide,
   GetGlobalContext_returns_bound androidConfig 0
     (sampleState true (sampleThreadLocal (some ⟨some 100⟩) none (some 100))) ⟨some 100⟩
     rfl (fun _ => rfl)⟩

end angle

/-! ## The last-context tracker and the context-lost notifier -/

namespace angle

/-- C6, as stated, fails for the null context: with context 1 recorded as the last
context, `DirtyContextIfNeeded(nullptr)` sees a mismatch, invokes nothing and
leaves the record at context 1, so the record does not equal the call context
afterwards. -/
theorem DirtyContextIfNeeded_null_mismatch_is_noop :
    (none : gl.ContextPtr) ≠
      egl.GetGlobalLastContext
        (egl.SetGlobalLastContext (some 1)
          (sampleState false (sampleThreadLocal none none none))) ∧
    egl.GetGlobalLastContext
        (gl.DirtyContextIfNeeded none
          (egl.SetGlobalLastContext (some 1)
            (sampleState false (sampleThreadLocal none none none)))) ≠ none ∧
    (gl.DirtyContextIfNeeded none
        (egl.SetGlobalLastContext (some 1)
          (sampleState false (sampleThreadLocal none none none)))).log = [] := by
  decide

/-- C6, amended: for every non-null call context `c` and every value `L` of the last
context, `DirtyContextIfNeeded(c)` on a mismatch invokes `dirtyAllState()` on `c`
exactly once and records `c` as the last context, changing nothing else, and on
a match changes nothing; in both cases the last context equals `c` afterwards.
For the null context it changes nothing. -/
theorem DirtyContextIfNeeded_spec (a : Nat) (L : gl.ContextPtr) (s : State)
    (hL : egl.GetGlobalLastContext s = L) :
    (some a ≠ L →
      gl.DirtyContextIfNeeded (some a) s =
        { s with globalLastContext := some a, log := s.log ++ [Event.dirtyAllState a] }) ∧
    (some a = L → gl.DirtyContextIfNeeded (some a) s = s) ∧
    egl.GetGlobalLastContext (gl.DirtyContextIfNeeded (some a) s) = some a ∧
    gl.DirtyContextIfNeeded none s = s := by
  subst hL
  refine ⟨?_, ?_, ?_, rfl⟩
  · intro h
    simp [gl.DirtyContextIfNeeded, h, egl.SetGlobalLastContext, gl.dirtyAllState]
  · intro h
    simp [gl.DirtyContextIfNeeded, h]
  · unfold egl.GetGlobalLastContext
    by_cases h : some a = s.globalLastContext
    · simp [gl.DirtyContextIfNeeded, egl.GetGlobalLastContext, h.symm]
    · simp [gl.DirtyContextIfNeeded, egl.GetGlobalLastContext, h, egl.SetGlobalLastContext]

/-- C6, amended, at a call on context 2 while context 1 is the last context. -/
theorem DirtyContextIfNeeded_spec_witness :
    ((some 2 : gl.ContextPtr) ≠ some 1 →
      gl.DirtyContextIfNeeded (some 2)
          (egl.SetGlobalLastContext (some 1)
            (sampleState false (sampleThreadLocal none none none))) =
        { egl.SetGlobalLastContext (some 1)
            (sampleState false (sampleThreadLocal none none none)) with
          globalLastContext := some 2
          log := (egl.SetGlobalLastContext (some 1)
            (sampleState false (sampleThreadLocal none none none))).log ++
              [Event.dirtyAllState 2] }) ∧
    ((some 2 : gl.ContextPtr) = some 1 →
      gl.DirtyContextIfNeeded (some 2)
          (egl.SetGlobalLastContext (some 1)
            (sampleState false (sampleThreadLocal none none none))) =
        egl.SetGlobalLastContext (some 1)
          (sampleState false (sampleThreadLocal none none none))) ∧
    egl.GetGlobalLastContext
        (gl.DirtyContextIfNeeded (some 2)
          (egl.SetGlobalLastContext (some 1)
            (sampleState false (sampleThreadLocal none none none)))) = some 2 ∧
    gl.DirtyContextIfNeeded none
        (egl.SetGlobalLastContext (some 1)
          (sampleState false (sampleThreadLocal none none none))) =
      egl.SetGlobalLastContext (some 1)
        (sampleState false (sampleThreadLocal none none none)) :=
  DirtyContextIfNeeded_spec 2 (some 1)
    (egl.SetGlobalLastContext (some 1)
      (sampleState false (sampleThreadLocal none none none))) rfl

/-- C8: `GenerateContextLostErrorOnContext(ctx)` always returns; for a null context
and for a context that is not lost it records nothing and leaves the state as
it was; for a non-null lost context it records exactly one error on that
context, none on any other context, and changes nothing else. -/
theorem GenerateContextLostErrorOnContext_spec (s : State) :
    gl.GenerateContextLostErrorOnContext none s = Outcome.returns s ∧
    ∀ a : Nat,
      ((s.contexts a).isContextLost = false →
        gl.GenerateContextLostErrorOnContext (some a) s = Outcome.returns s) ∧
      ((s.contexts a).isContextLost = true →
        ∃ s1, gl.GenerateContextLostErrorOnContext (some a) s = Outcome.returns s1 ∧
          s1 = { s with log := s.log ++ [Event.validationError a] } ∧
          recordedErrors a s1 = recordedErrors a s + 1 ∧
          ∀ b, b ≠ a → recordedErrors b s1 = recordedErrors b s) := by
  refine ⟨rfl, fun a => ⟨?_, ?_⟩⟩
  · intro h
    simp [gl.GenerateContextLostErrorOnContext, h]
  · intro h
    refine ⟨_, by simp [gl.GenerateContextLostErrorOnContext, h], rfl, ?_, ?_⟩
    · simp [recordedErrors, List.count_append]
    · intro b hb
      have hne : Event.validationError a ≠ Event.validationError b := by
        intro h; injection h with h; exact hb h.symm
      simp [recordedErrors, List.count_append, List.count_singleton, hne]

end angle

/-! ## The recursive mutex -/

namespace angle

/-- What a successful lock did to the mutex: it was free and is now taken at
level one, or the caller owned it below the maximum level and gained a level. -/
theorem GlobalMutex.lock_cases {t : ThreadId} {m m1 : GlobalMutex}
    (h : m.lock t = Outcome.returns m1) :
    (m.owner = none ∧ m1 = { m with owner := some t, count := 1 }) ∨
      (m.owner = some t ∧ m.count < m.maxLevel ∧ m1 = { m with count := m.count + 1 }) := by
  unfold GlobalMutex.lock at h
  cases ho : m.owner with
  | none =>
    simp only [ho, Outcome.returns.injEq] at h
    exact Or.inl ⟨rfl, by rw [← h]⟩
  | some o =>
    simp only [ho] at h
    by_cases hos : o = t
    · subst hos
      by_cases hlt : m.count < m.maxLevel
      · simp only [if_true, hlt, Outcome.returns.injEq] at h
        exact Or.inr ⟨rfl, hlt, h.symm⟩
      · simp [hlt] at h
    · simp [hos] at h

/-- A mutex that thread `self` locked is owned by `self`. -/
theorem GlobalMutex.owner_of_lock {self : ThreadId} {m m1 : GlobalMutex}
    (h : m.lock self = Outcome.returns m1) : m1.owner = some self := by
  rcases GlobalMutex.lock_cases h with ⟨_, h1⟩ | ⟨ho, _, h1⟩
  · rw [h1]
  · rw [h1]; exact ho

/-- Locking blocks exactly while another thread owns the mutex. -/
theorem GlobalMutex.lock_blocks_iff (self : ThreadId) (m : GlobalMutex) :
    m.lock self = Outcome.blocks ↔ ∃ o, m.owner = some o ∧ o ≠ self := by
  unfold GlobalMutex.lock
  cases ho : m.owner with
  | none => simp
  | some o =>
    by_cases hos : o = self
    · by_cases hlt : m.count < m.maxLevel
      · simp [hos, hlt]
      · simp [hos, hlt]
    · simp [hos]

/-- Locking throws exactly when the caller owns the mutex at its maximum level. -/
theorem GlobalMutex.lock_throws_iff (self : ThreadId) (m : GlobalMutex) :
    m.lock self = Outcome.throws ↔ m.owner = some self ∧ ¬ m.count < m.maxLevel := by
  unfold GlobalMutex.lock
  cases ho : m.owner with
  | none => simp
  | some o =>
    by_cases hos : o = self
    · by_cases hlt : m.count < m.maxLevel
      · simp [hos, hlt]
      · simp [hos, hlt]
    · simp [hos]

/-- What a successful unlock did to the mutex. -/
theorem GlobalMutex.unlock_cases {t : ThreadId} {m m1 : GlobalMutex} (h : m.unlock t = some m1) :
    m.owner = some t ∧
      ((m.count ≤ 1 ∧ m1 = { m with owner := none, count := 0 }) ∨
        (¬ m.count ≤ 1 ∧ m1 = { m with count := m.count - 1 })) := by
  unfold GlobalMutex.unlock at h
  cases ho : m.owner with
  | none => simp [ho] at h
  | some o =>
    simp only [ho] at h
    by_cases hos : o = t
    · subst hos
      by_cases hc : m.count ≤ 1
      · simp only [if_true, hc, Option.some.injEq] at h
        exact ⟨rfl, Or.inl ⟨hc, h.symm⟩⟩
      · simp only [if_true, hc, if_false, Option.some.injEq] at h
        exact ⟨rfl, Or.inr ⟨hc, h.symm⟩⟩
    · simp [hos] at h

/-- A mutex that is free, or that the caller owns below the maximum level, can be
locked by the caller, and the unlock that follows leaves it free or with the
caller below the maximum level again. -/
theorem GlobalMutex.lock_unlock_of_available {t : ThreadId} {m : GlobalMutex}
    (h : m.owner = none ∨ (m.owner = some t ∧ m.count < m.maxLevel)) :
    ∃ m1 m2, m.lock t = Outcome.returns m1 ∧ m1.owner = some t ∧
      m1.unlock t = some m2 ∧
      (m2.owner = none ∨ (m2.owner = some t ∧ m2.count < m2.maxLevel)) := by
  rcases h with h | ⟨h, hlt⟩
  · exact ⟨{ m with owner := some t, count := 1 }, { m with owner := none, count := 0 },
      by simp [GlobalMutex.lock, h], rfl, by simp [GlobalMutex.unlock], Or.inl rfl⟩
  · by_cases hc : m.count + 1 ≤ 1
    · exact ⟨{ m with count := m.count + 1 }, { m with owner := none, count := 0 },
        by simp [GlobalMutex.lock, h, hlt], h, by simp [GlobalMutex.unlock, h, hc], Or.inl rfl⟩
    · refine ⟨{ m with count := m.count + 1 }, { m with count := m.count },
        by simp [GlobalMutex.lock, h, hlt], h, ?_, Or.inr ⟨h, hlt⟩⟩
      have hc1 : ¬ m.count = 0 := by omega
      simp [GlobalMutex.unlock, h, hc1]

end angle

/-! ## The lock policy -/

namespace angle

/-- C2: without the always-check switch and for a non-null context,
`GetContextLock` returns an empty guard and leaves the whole state, the mutex
included, untouched when the context is unshared, whatever the state of the
mutex, so the call cannot block; for a shared context it locks the global
mutex and returns an owning guard (or blocks while another thread owns the
mutex, or passes on the exception of a mutex at its maximum level); hence a
returned guard holds the mutex if and only if the context is shared. -/
theorem GetContextLock_shared_only (cfg : BuildConfig)
    (hcfg : cfg.ANGLE_FORCE_CONTEXT_CHECK_EVERY_CALL = false)
    (self : ThreadId) (a : Nat) (s : State) :
    ((s.contexts a).isShared = false →
      gl.GetContextLock cfg self (some a) s = Outcome.returns (UniqueLock.empty, s) ∧
      UniqueLock.empty.owns = false) ∧
    ((s.contexts a).isShared = true →
      (s.globalMutex.lock self = Outcome.blocks →
        gl.GetContextLock cfg self (some a) s = Outcome.blocks) ∧
      (s.globalMutex.lock self = Outcome.throws →
        gl.GetContextLock cfg self (some a) s = Outcome.throws) ∧
      (∀ m, s.globalMutex.lock self = Outcome.returns m →
        gl.GetContextLock cfg self (some a) s =
          Outcome.returns ({ owns := true },
            { s with globalMutex := m, log := s.log ++ [Event.lock self] }) ∧
        m.owner = some self)) ∧
    (∀ g s1, gl.GetContextLock cfg self (some a) s = Outcome.returns (g, s1) →
      (g.owns = true ↔ (s.contexts a).isShared = true) ∧
      (g.owns = true → s1.globalMutex.owner = some self) ∧
      (g.owns = false → s1 = s)) := by
  refine ⟨?_, ?_, ?_⟩
  · intro hsh
    exact ⟨by simp [gl.GetContextLock, hcfg, hsh], rfl⟩
  · intro hsh
    refine ⟨?_, ?_, ?_⟩
    · intro hl
      simp [gl.GetContextLock, hcfg, hsh, UniqueLock.acquire, lockGlobalMutex,
        egl.GetGlobalMutex, hl]
    · intro hl
      simp [gl.GetContextLock, hcfg, hsh, UniqueLock.acquire, lockGlobalMutex,
        egl.GetGlobalMutex, hl]
    · intro m hl
      exact ⟨by simp [gl.GetContextLock, hcfg, hsh, UniqueLock.acquire, lockGlobalMutex,
        egl.GetGlobalMutex, hl], GlobalMutex.owner_of_lock hl⟩
  · intro g s1 h
    cases hsh : (s.contexts a).isShared with
    | false =>
      simp [gl.GetContextLock, hcfg, hsh, UniqueLock.empty] at h
      obtain ⟨hg, hs⟩ := h
      subst hg
      simp [hs]
    | true =>
      cases hl : s.globalMutex.lock self with
      | blocks =>
        simp [gl.GetContextLock, hcfg, hsh, UniqueLock.acquire, lockGlobalMutex,
          egl.GetGlobalMutex, hl] at h
      | throws =>
        simp [gl.GetContextLock, hcfg, hsh, UniqueLock.acquire, lockGlobalMutex,
          egl.GetGlobalMutex, hl] at h
      | undefined =>
        simp [gl.GetContextLock, hcfg, hsh, UniqueLock.acquire, lockGlobalMutex,
          egl.GetGlobalMutex, hl] at h
      | returns m =>
        simp [gl.GetContextLock, hcfg, hsh, UniqueLock.acquire, lockGlobalMutex,
          egl.GetGlobalMutex, hl] at h
        obtain ⟨hg, hs⟩ := h
        subst hg
        subst hs
        simp [GlobalMutex.owner_of_lock hl]

/-- C2 at the unshared context 2 while thread 9 owns the global mutex: thread 0 gets
an empty guard at once and the state is untouched. -/
theorem GetContextLock_shared_only_witness :
    gl.GetContextLock androidConfig 0 (some 2)
        (withGlobalMutex ⟨some 9, 1, sampleMaxLevel⟩
          (sampleState false (sampleThreadLocal none none none))) =
      Outcome.returns (UniqueLock.empty,
        withGlobalMutex ⟨some 9, 1, sampleMaxLevel⟩
          (sampleState false (sampleThreadLocal none none none))) ∧
    UniqueLock.empty.owns = false :=
  (GetContextLock_shared_only androidConfig rfl 0 2
    (withGlobalMutex ⟨some 9, 1, sampleMaxLevel⟩
      (sampleState false (sampleThreadLocal none none none)))).1
    (by decide)

/-- C9, as stated, fails at the maximum level of ownership: thread 5 owns the global
mutex at level 4294967295, the maximum of the mutex, and a further acquisition,
through `ANGLE_SCOPED_GLOBAL_LOCK()` as through `GetContextLock` on the shared
context 3, throws instead of raising the level to 4294967296. -/
theorem global_mutex_reentrant_fails_at_max_level :
    (withGlobalMutex ⟨some 5, 4294967295, 4294967295⟩
        (sampleState false (sampleThreadLocal none none none))).globalMutex.owner = some 5 ∧
    1 ≤ (withGlobalMutex ⟨some 5, 4294967295, 4294967295⟩
        (sampleState false (sampleThreadLocal none none none))).globalMutex.count ∧
    requiresLock androidConfig (some 3)
        (withGlobalMutex ⟨some 5, 4294967295, 4294967295⟩
          (sampleState false (sampleThreadLocal none none none))) = true ∧
    ANGLE_SCOPED_GLOBAL_LOCK 5
        (withGlobalMutex ⟨some 5, 4294967295, 4294967295⟩
          (sampleState false (sampleThreadLocal none none none))) = Outcome.throws ∧
    gl.GetContextLock androidConfig 5 (some 3)
        (withGlobalMutex ⟨some 5, 4294967295, 4294967295⟩
          (sampleState false (sampleThreadLocal none none none))) = Outcome.throws :=
  ⟨rfl, by decide, by decide, rfl, rfl⟩

/-- C9, amended: a thread `t` that owns the global mutex at any level `n ≥ 1` below
the maximum level of the mutex acquires it again without blocking and without
an exception, through `ANGLE_SCOPED_GLOBAL_LOCK()` and through `GetContextLock`
on any context for which the lock is taken; the level becomes `n + 1` with `t`
the owner, and releasing the inner guard restores level `n` with `t` still the
owner. -/
theorem global_mutex_reentrant (t : ThreadId) (n : Nat) (s : State)
    (howner : s.globalMutex.owner = some t) (hcount : s.globalMutex.count = n) (hn : 1 ≤ n)
    (hmax : n < s.globalMutex.maxLevel) :
    (∃ s1 s2, ANGLE_SCOPED_GLOBAL_LOCK t s = Outcome.returns s1 ∧
        s1.globalMutex = ⟨some t, n + 1, s.globalMutex.maxLevel⟩ ∧
        scopedGlobalLockExit t s1 = Outcome.returns s2 ∧
        s2.globalMutex = ⟨some t, n, s.globalMutex.maxLevel⟩) ∧
    (∀ cfg c, requiresLock cfg c s = true →
      ∃ g s1 s2, gl.GetContextLock cfg t c s = Outcome.returns (g, s1) ∧
        g.owns = true ∧
        s1.globalMutex = ⟨some t, n + 1, s.globalMutex.maxLevel⟩ ∧
        g.destroy t s1 = Outcome.returns s2 ∧
        s2.globalMutex = ⟨some t, n, s.globalMutex.maxLevel⟩) := by
  have hlock : s.globalMutex.lock t =
      Outcome.returns ⟨some t, n + 1, s.globalMutex.maxLevel⟩ := by
    simp [GlobalMutex.lock, howner, hcount, hmax]
  have hunlock : (GlobalMutex.mk (some t) (n + 1) s.globalMutex.maxLevel).unlock t =
      some ⟨some t, n, s.globalMutex.maxLevel⟩ := by
    have : ¬ n = 0 := by omega
    simp [GlobalMutex.unlock, this]
  have hrel : ∀ s1 : State, s1.globalMutex = ⟨some t, n + 1, s.globalMutex.maxLevel⟩ →
      unlockGlobalMutex t s1 =
        some { s1 with globalMutex := ⟨some t, n, s.globalMutex.maxLevel⟩
                       log := s1.log ++ [Event.unlock t] } := by
    intro s1 h1
    simp only [unlockGlobalMutex, egl.GetGlobalMutex, h1, hunlock]
  have hacq : lockGlobalMutex t s =
      Outcome.returns { s with globalMutex := ⟨some t, n + 1, s.globalMutex.maxLevel⟩
                               log := s.log ++ [Event.lock t] } := by
    simp only [lockGlobalMutex, egl.GetGlobalMutex, hlock]
  constructor
  · refine ⟨{ s with globalMutex := ⟨some t, n + 1, s.globalMutex.maxLevel⟩
                     log := s.log ++ [Event.lock t] },
      { s with globalMutex := ⟨some t, n, s.globalMutex.maxLevel⟩
               log := s.log ++ [Event.lock t] ++ [Event.unlock t] },
      ?_, rfl, ?_, rfl⟩
    · simp only [ANGLE_SCOPED_GLOBAL_LOCK, hacq]
    · simp only [scopedGlobalLockExit]
      rw [hrel _ rfl]
  · intro cfg c hreq
    unfold requiresLock at hreq
    cases hF : cfg.ANGLE_FORCE_CONTEXT_CHECK_EVERY_CALL with
    | true =>
      have hm : (gl.DirtyContextIfNeeded c
          { s with globalMutex := ⟨some t, n + 1, s.globalMutex.maxLevel⟩
                   log := s.log ++ [Event.lock t] }).globalMutex
          = ⟨some t, n + 1, s.globalMutex.maxLevel⟩ := by
        cases c with
        | none => rfl
        | some a =>
          by_cases h : some a = s.globalLastContext
          · simp [gl.DirtyContextIfNeeded, egl.GetGlobalLastContext, h.symm]
          · simp [gl.DirtyContextIfNeeded, egl.GetGlobalLastContext, h,
              egl.SetGlobalLastContext, gl.dirtyAllState]
      refine ⟨{ owns := true }, gl.DirtyContextIfNeeded c
          { s with globalMutex := ⟨some t, n + 1, s.globalMutex.maxLevel⟩
                   log := s.log ++ [Event.lock t] },
        { gl.DirtyContextIfNeeded c
            { s with globalMutex := ⟨some t, n + 1, s.globalMutex.maxLevel⟩
                     log := s.log ++ [Event.lock t] } with
          globalMutex := ⟨some t, n, s.globalMutex.maxLevel⟩
          log := (gl.DirtyContextIfNeeded c
            { s with globalMutex := ⟨some t, n + 1, s.globalMutex.maxLevel⟩
                     log := s.log ++ [Event.lock t] }).log ++
              [Event.unlock t] },
        ?_, rfl, hm, ?_, rfl⟩
      · simp only [gl.GetContextLock, hF, if_true, UniqueLock.acquire, hacq]
      · simp only [UniqueLock.destroy, if_true]
        rw [hrel _ hm]
    | false =>
      cases c with
      | none => simp [hF] at hreq
      | some a =>
        simp [hF] at hreq
        refine ⟨{ owns := true },
          { s with globalMutex := ⟨some t, n + 1, s.globalMutex.maxLevel⟩
                   log := s.log ++ [Event.lock t] },
          { s with globalMutex := ⟨some t, n, s.globalMutex.maxLevel⟩
                   log := s.log ++ [Event.lock t] ++ [Event.unlock t] },
          ?_, rfl, rfl, ?_, rfl⟩
        · simp [gl.GetContextLock, hF, hreq, UniqueLock.acquire, hacq]
        · simp only [UniqueLock.destroy, if_true]
          rw [hrel _ rfl]

/-- C9, amended, at thread 5 owning the mutex at level 2 of at most 4294967295: the
scoped lock raises the level to 3 and its release restores level 2. -/
theorem global_mutex_reentrant_witness :
    (2 : Nat) < (withGlobalMutex ⟨some 5, 2, sampleMaxLevel⟩
        (sampleState false (sampleThreadLocal none none none))).globalMutex.maxLevel ∧
    ∃ s1 s2, ANGLE_SCOPED_GLOBAL_LOCK 5
          (withGlobalMutex ⟨some 5, 2, sampleMaxLevel⟩
            (sampleState false (sampleThreadLocal none none none))) =
        Outcome.returns s1 ∧
      s1.globalMutex = ⟨some 5, 2 + 1, sampleMaxLevel⟩ ∧
      scopedGlobalLockExit 5 s1 = Outcome.returns s2 ∧
      s2.globalMutex = ⟨some 5, 2, sampleMaxLevel⟩ :=
  ⟨by decide,
   (global_mutex_reentrant 5 2
    (withGlobalMutex ⟨some 5, 2, sampleMaxLevel⟩
      (sampleState false (sampleThreadLocal none none none)))
    rfl rfl (by decide) (by decide)).1⟩

end angle

/-! ## Dirty-on-switch along schedules -/

namespace angle

/-- The dirty check leaves the global mutex alone. -/
theorem DirtyContextIfNeeded_globalMutex (c : gl.ContextPtr) (s : State) :
    (gl.DirtyContextIfNeeded c s).globalMutex = s.globalMutex := by
  cases c with
  | none => rfl
  | some a =>
    by_cases h : some a = s.globalLastContext
    · simp [gl.DirtyContextIfNeeded, egl.GetGlobalLastContext, h.symm]
    · simp [gl.DirtyContextIfNeeded, egl.GetGlobalLastContext, h, egl.SetGlobalLastContext,
        gl.dirtyAllState]

/-- The dirty check extends the log by its dirty-on-switch events. -/
theorem DirtyContextIfNeeded_log (c : gl.ContextPtr) (s : State) :
    (gl.DirtyContextIfNeeded c s).log = s.log ++ dirtyOnSwitch c s.globalLastContext := by
  cases c with
  | none => simp [gl.DirtyContextIfNeeded, dirtyOnSwitch]
  | some a =>
    by_cases h : some a = s.globalLastContext
    · simp [gl.DirtyContextIfNeeded, egl.GetGlobalLastContext, h.symm, dirtyOnSwitch]
    · simp [gl.DirtyContextIfNeeded, egl.GetGlobalLastContext, h, egl.SetGlobalLastContext,
        gl.dirtyAllState, dirtyOnSwitch]

/-- After the dirty check on a non-null context, that context is the last one. -/
theorem DirtyContextIfNeeded_last (a : Nat) (s : State) :
    (gl.DirtyContextIfNeeded (some a) s).globalLastContext = some a := by
  by_cases h : some a = s.globalLastContext
  · simp [gl.DirtyContextIfNeeded, egl.GetGlobalLastContext, h.symm]
  · simp [gl.DirtyContextIfNeeded, egl.GetGlobalLastContext, h, egl.SetGlobalLastContext]

/-- An owning guard whose mutex the caller can unlock is released without fault,
which leaves the recorded last context alone and logs one unlock. -/
theorem UniqueLock.destroy_of_unlock {t : ThreadId} {s : State} {m2 : GlobalMutex}
    (h : s.globalMutex.unlock t = some m2) :
    ∃ s1, UniqueLock.destroy t { owns := true } s = Outcome.returns s1 ∧
      s1.globalLastContext = s.globalLastContext ∧
      s1.log = s.log ++ [Event.unlock t] ∧
      s1.globalMutex = m2 := by
  refine ⟨{ s with globalMutex := m2, log := s.log ++ [Event.unlock t] }, ?_, rfl, rfl, rfl⟩
  simp only [UniqueLock.destroy, if_true, unlockGlobalMutex, egl.GetGlobalMutex, h]

/-- Under the always-check switch, `GetContextLock` on a mutex that is free, or
that the caller owns below the maximum level, returns an owning guard, having
logged the lock and then the dirty-on-switch events; the guard can be released,
which leaves the mutex free or with the caller below the maximum level. -/
theorem GetContextLock_returns_of_available (cfg : BuildConfig)
    (hcfg : cfg.ANGLE_FORCE_CONTEXT_CHECK_EVERY_CALL = true)
    (t : ThreadId) (c : gl.ContextPtr) (s : State)
    (hfree : s.globalMutex.owner = none ∨
      (s.globalMutex.owner = some t ∧ s.globalMutex.count < s.globalMutex.maxLevel)) :
    ∃ s1 m2, gl.GetContextLock cfg t c s = Outcome.returns ({ owns := true }, s1) ∧
      s1.globalMutex.unlock t = some m2 ∧
      (m2.owner = none ∨ (m2.owner = some t ∧ m2.count < m2.maxLevel)) ∧
      s1.log = s.log ++ Event.lock t :: dirtyOnSwitch c s.globalLastContext ∧
      s1.globalLastContext = (match c with
        | none => s.globalLastContext
        | some a => some a) := by
  obtain ⟨m1, m2, hm1, _, hm2, havail⟩ := GlobalMutex.lock_unlock_of_available hfree
  refine ⟨gl.DirtyContextIfNeeded c
      { s with globalMutex := m1, log := s.log ++ [Event.lock t] }, m2, ?_, ?_, havail, ?_, ?_⟩
  · simp only [gl.GetContextLock, hcfg, if_true, UniqueLock.acquire, lockGlobalMutex,
      egl.GetGlobalMutex, hm1]
  · rw [DirtyContextIfNeeded_globalMutex]; exact hm2
  · rw [DirtyContextIfNeeded_log]; simp
  · cases c with
    | none => rfl
    | some a => exact DirtyContextIfNeeded_last a _

/-- Under the always-check switch, one API entry on a mutex that is free, or that
the caller owns below the maximum level, returns; its log is the lock, the
dirty-on-switch events and the unlock, and the mutex is again free or with the
caller below the maximum level. -/
theorem entryPoint_always_check (cfg : BuildConfig)
    (hcfg : cfg.ANGLE_FORCE_CONTEXT_CHECK_EVERY_CALL = true)
    (t : ThreadId) (c : gl.ContextPtr) (s : State)
    (hfree : s.globalMutex.owner = none ∨
      (s.globalMutex.owner = some t ∧ s.globalMutex.count < s.globalMutex.maxLevel)) :
    ∃ s1, entryPoint cfg t c s = Outcome.returns s1 ∧
      (s1.globalMutex.owner = none ∨
        (s1.globalMutex.owner = some t ∧ s1.globalMutex.count < s1.globalMutex.maxLevel)) ∧
      s1.log = s.log ++ Event.lock t :: dirtyOnSwitch c s.globalLastContext ++ [Event.unlock t] ∧
      s1.globalLastContext = (match c with
        | none => s.globalLastContext
        | some a => some a) := by
  obtain ⟨s1, m2, h1, hm2, havail, hlog, hlast⟩ :=
    GetContextLock_returns_of_available cfg hcfg t c s hfree
  obtain ⟨s2, h2, hlast2, hlog2, hmut2⟩ := UniqueLock.destroy_of_unlock hm2
  refine ⟨s2, ?_, ?_, ?_, ?_⟩
  · simp only [entryPoint, h1, h2]
  · rw [hmut2]; exact havail
  · rw [hlog2, hlog]
  · rw [hlast2, hlast]

/-- Under the always-check switch, any number of further API entries of a thread
on the context already recorded as the last one return and make no
`dirtyAllState()` call on any context. -/
theorem runEntryPoints_same_context (cfg : BuildConfig)
    (hcfg : cfg.ANGLE_FORCE_CONTEXT_CHECK_EVERY_CALL = true)
    (t : ThreadId) (b : Nat) (n : Nat) :
    ∀ s : State,
      (s.globalMutex.owner = none ∨
        (s.globalMutex.owner = some t ∧ s.globalMutex.count < s.globalMutex.maxLevel)) →
      s.globalLastContext = some b →
      ∃ sN, runEntryPoints cfg (List.replicate n (t, some b)) s = Outcome.returns sN ∧
        sN.globalLastContext = some b ∧
        ∀ x, dirtyCalls x sN = dirtyCalls x s := by
  induction n with
  | zero =>
    intro s _ hlast
    exact ⟨s, rfl, hlast, fun _ => rfl⟩
  | succ n ih =>
    intro s hfree hlast
    obtain ⟨s1, h1, hfree1, hlog1, hlast1⟩ := entryPoint_always_check cfg hcfg t (some b) s hfree
    obtain ⟨sN, hN, hlastN, hdirty⟩ := ih s1 hfree1 hlast1
    refine ⟨sN, ?_, hlastN, ?_⟩
    · simp only [List.replicate_succ, runEntryPoints, h1, hN]
    · intro x
      rw [hdirty x]
      simp [dirtyCalls, hlog1, hlast, dirtyOnSwitch, List.count_append, List.count_cons]

/-- C3, as stated, fails under the always-check switch.  Thread 1 calls on context
2 and then on context 4, thread 2 calls on context 6, and thread 1 calls on
context 4 again: its further call, made without any switch of its own context,
makes a second `dirtyAllState()` on context 4.  And when thread 2 calls on
context 4 between thread 1's call on 2 and its first call on 4, that first call
makes no `dirtyAllState()` at all. -/
theorem dirty_on_switch_depends_on_other_threads :
    dirtyCallsAfter alwaysCheckConfig [(1, some 2), (1, some 4)] 4
        (sampleState false (sampleThreadLocal none none none)) = some 1 ∧
    dirtyCallsAfter alwaysCheckConfig [(1, some 2), (1, some 4), (2, some 6)] 4
        (sampleState false (sampleThreadLocal none none none)) = some 1 ∧
    dirtyCallsAfter alwaysCheckConfig [(1, some 2), (1, some 4), (2, some 6), (1, some 4)] 4
        (sampleState false (sampleThreadLocal none none none)) = some 2 ∧
    dirtyCallsAfter alwaysCheckConfig [(1, some 2), (2, some 4)] 4
        (sampleState false (sampleThreadLocal none none none)) = some 1 ∧
    dirtyCallsAfter alwaysCheckConfig [(1, some 2), (2, some 4), (1, some 4)] 4
        (sampleState false (sampleThreadLocal none none none)) = some 1 := by
  decide

/-- C3, amended: under the always-check switch, for a thread `t` whose calls are not
interleaved with calls of other threads (so that no other thread changes the
recorded last context in between) and to which the global mutex is available
(it is free, or `t` owns it below the maximum level): after its call on context
`A`, its first call on a context `B` different from `A` makes exactly one
`dirtyAllState()`, on `B`, inside `GetContextLock` and after the lock, hence
before the operation on `B` runs; and any number of further calls of `t` on `B`
make no `dirtyAllState()` call on any context. -/
theorem dirty_once_on_switch_then_never (cfg : BuildConfig)
    (hcfg : cfg.ANGLE_FORCE_CONTEXT_CHECK_EVERY_CALL = true)
    (t : ThreadId) (A B : Nat) (n : Nat) (s : State) (hAB : A ≠ B)
    (hfree : s.globalMutex.owner = none ∨
      (s.globalMutex.owner = some t ∧ s.globalMutex.count < s.globalMutex.maxLevel)) :
    ∃ sA g sB sB1 sN,
      entryPoint cfg t (some A) s = Outcome.returns sA ∧
      gl.GetContextLock cfg t (some B) sA = Outcome.returns (g, sB) ∧
      sB.log = sA.log ++ [Event.lock t, Event.dirtyAllState B] ∧
      dirtyCalls B sB = dirtyCalls B sA + 1 ∧
      (∀ x, x ≠ B → dirtyCalls x sB = dirtyCalls x sA) ∧
      g.destroy t sB = Outcome.returns sB1 ∧
      runEntryPoints cfg (List.replicate n (t, some B)) sB1 = Outcome.returns sN ∧
      (∀ x, dirtyCalls x sN = dirtyCalls x sB) := by
  obtain ⟨sA, hA, hfreeA, _, hlastA⟩ := entryPoint_always_check cfg hcfg t (some A) s hfree
  obtain ⟨sB, m2, hB, hm2, havail, hlogB, hlastB⟩ :=
    GetContextLock_returns_of_available cfg hcfg t (some B) sA hfreeA
  obtain ⟨sB1, hB1, hlastB1, hlogB1, hmutB1⟩ := UniqueLock.destroy_of_unlock hm2
  obtain ⟨sN, hN, _, hdirty⟩ :=
    runEntryPoints_same_context cfg hcfg t B n sB1 (by rw [hmutB1]; exact havail)
      (by rw [hlastB1, hlastB])
  have hne : (some B : gl.ContextPtr) ≠ some A := by
    intro h; injection h with h; exact hAB h.symm
  have hlogB2 : sB.log = sA.log ++ [Event.lock t, Event.dirtyAllState B] := by
    rw [hlogB, hlastA]; simp [dirtyOnSwitch, hne]
  refine ⟨sA, _, sB, sB1, sN, hA, hB, hlogB2, ?_, ?_, hB1, hN, ?_⟩
  · simp [dirtyCalls, hlogB2, List.count_append, List.count_cons]
  · intro x hx
    have hxe : Event.dirtyAllState B ≠ Event.dirtyAllState x := by
      intro h; injection h with h; exact hx h.symm
    simp [dirtyCalls, hlogB2, List.count_append, List.count_cons, hxe]
  · intro x
    rw [hdirty x]
    simp [dirtyCalls, hlogB1, List.count_append, List.count_cons]

/-- C3, amended, at thread 1 switching from context 2 to context 4 and calling
three more times on context 4, from a free mutex. -/
theorem dirty_once_on_switch_then_never_witness :
    ∃ sA g sB sB1 sN,
      entryPoint alwaysCheckConfig 1 (some 2)
          (sampleState false (sampleThreadLocal none none none)) = Outcome.returns sA ∧
      gl.GetContextLock alwaysCheckConfig 1 (some 4) sA = Outcome.returns (g, sB) ∧
      sB.log = sA.log ++ [Event.lock 1, Event.dirtyAllState 4] ∧
      dirtyCalls 4 sB = dirtyCalls 4 sA + 1 ∧
      (∀ x, x ≠ 4 → dirtyCalls x sB = dirtyCalls x sA) ∧
      g.destroy 1 sB = Outcome.returns sB1 ∧
      runEntryPoints alwaysCheckConfig (List.replicate 3 (1, some 4)) sB1 = Outcome.returns sN ∧
      (∀ x, dirtyCalls x sN = dirtyCalls x sB) :=
  dirty_once_on_switch_then_never alwaysCheckConfig rfl 1 2 4 3
    (sampleState false (sampleThreadLocal none none none)) (by decide) (Or.inl rfl)

end angle

/-! ## Serialization on the global mutex -/

namespace angle

/-- What a returned `GetContextLock` on a non-null context did: the table of
contexts is as before, a context that requires the lock got an owning guard,
and either the guard is empty and the mutex untouched or the guard owns and the
mutex was locked by the caller. -/
theorem GetContextLock_returns_cases {cfg : BuildConfig} {t : ThreadId} {a : Nat}
    {s s1 : State} {g : UniqueLock}
    (h : gl.GetContextLock cfg t (some a) s = Outcome.returns (g, s1)) :
    s1.contexts = s.contexts ∧
    (requiresLock cfg (some a) s = true → g.owns = true) ∧
    ((g.owns = false ∧ s1.globalMutex = s.globalMutex) ∨
      (g.owns = true ∧ s.globalMutex.lock t = Outcome.returns s1.globalMutex)) := by
  cases hF : cfg.ANGLE_FORCE_CONTEXT_CHECK_EVERY_CALL with
  | true =>
    cases hl : s.globalMutex.lock t with
    | blocks =>
      simp [gl.GetContextLock, hF, UniqueLock.acquire, lockGlobalMutex, egl.GetGlobalMutex,
        hl] at h
    | throws =>
      simp [gl.GetContextLock, hF, UniqueLock.acquire, lockGlobalMutex, egl.GetGlobalMutex,
        hl] at h
    | undefined =>
      simp [gl.GetContextLock, hF, UniqueLock.acquire, lockGlobalMutex, egl.GetGlobalMutex,
        hl] at h
    | returns m =>
      simp only [gl.GetContextLock, hF, if_true, UniqueLock.acquire, lockGlobalMutex,
        egl.GetGlobalMutex, hl, Outcome.returns.injEq, Prod.mk.injEq] at h
      obtain ⟨hg, hs⟩ := h
      subst hg
      subst hs
      refine ⟨?_, fun _ => rfl, Or.inr ⟨rfl, ?_⟩⟩
      · by_cases hc : some a = s.globalLastContext
        · simp [gl.DirtyContextIfNeeded, egl.GetGlobalLastContext, hc.symm]
        · simp [gl.DirtyContextIfNeeded, egl.GetGlobalLastContext, hc,
            egl.SetGlobalLastContext, gl.dirtyAllState]
      · rw [DirtyContextIfNeeded_globalMutex]
  | false =>
    cases hsh : (s.contexts a).isShared with
    | false =>
      simp only [gl.GetContextLock, hF, hsh, Bool.false_eq_true, if_false,
        Outcome.returns.injEq, Prod.mk.injEq] at h
      obtain ⟨hg, hs⟩ := h
      subst hg
      subst hs
      exact ⟨rfl, by simp [requiresLock, hF, hsh], Or.inl ⟨rfl, rfl⟩⟩
    | true =>
      cases hl : s.globalMutex.lock t with
      | blocks =>
        simp [gl.GetContextLock, hF, hsh, UniqueLock.acquire, lockGlobalMutex,
          egl.GetGlobalMutex, hl] at h
      | throws =>
        simp [gl.GetContextLock, hF, hsh, UniqueLock.acquire, lockGlobalMutex,
          egl.GetGlobalMutex, hl] at h
      | undefined =>
        simp [gl.GetContextLock, hF, hsh, UniqueLock.acquire, lockGlobalMutex,
          egl.GetGlobalMutex, hl] at h
      | returns m =>
        simp only [gl.GetContextLock, hF, hsh, if_true, Bool.false_eq_true, if_false,
          UniqueLock.acquire, lockGlobalMutex, egl.GetGlobalMutex, hl, Outcome.returns.injEq,
          Prod.mk.injEq] at h
        obtain ⟨hg, hs⟩ := h
        subst hg
        subst hs
        exact ⟨rfl, fun _ => rfl, Or.inr ⟨rfl, rfl⟩⟩

/-- What a returned guard destructor did: the table of contexts is as before,
and either the guard was empty and the mutex is untouched or the guard owned
and the mutex was unlocked by the caller. -/
theorem UniqueLock.destroy_returns_cases {t : ThreadId} {g : UniqueLock} {s s1 : State}
    (h : g.destroy t s = Outcome.returns s1) :
    s1.contexts = s.contexts ∧
    ((g.owns = false ∧ s1.globalMutex = s.globalMutex) ∨
      (g.owns = true ∧ s.globalMutex.unlock t = some s1.globalMutex)) := by
  cases hg : g.owns with
  | false =>
    simp only [UniqueLock.destroy, hg, Bool.false_eq_true, if_false, Outcome.returns.injEq] at h
    subst h
    exact ⟨rfl, Or.inl ⟨rfl, rfl⟩⟩
  | true =>
    cases hu : s.globalMutex.unlock t with
    | none =>
      simp [UniqueLock.destroy, hg, unlockGlobalMutex, egl.GetGlobalMutex, hu] at h
    | some m =>
      simp only [UniqueLock.destroy, hg, if_true, unlockGlobalMutex, egl.GetGlobalMutex, hu,
        Outcome.returns.injEq] at h
      subst h
      exact ⟨rfl, Or.inr ⟨rfl, rfl⟩⟩

/-- Whether a context requires the lock depends on the table of contexts only. -/
theorem requiresLock_congr (cfg : BuildConfig) (c : gl.ContextPtr) {s s1 : State}
    (h : s1.contexts = s.contexts) : requiresLock cfg c s1 = requiresLock cfg c s := by
  cases c with
  | none => rfl
  | some a => simp [requiresLock, h]

/-- A system at rest is consistent. -/
theorem System.consistent_of_atRest (cfg : BuildConfig) {sys : System} (h : sys.atRest) :
    sys.Consistent cfg := by
  obtain ⟨hfree, hnone⟩ := h
  refine ⟨?_, ?_, ?_⟩
  · intro t p hp; rw [hnone t] at hp; cases hp
  · intro t p hp; rw [hnone t] at hp; cases hp
  · intro o ho; rw [hfree] at ho; cases ho

end angle

namespace angle

/-- Entering a call keeps the system consistent and the table of contexts. -/
theorem System.consistent_enter (cfg : BuildConfig) {sys sys1 : System} (t : ThreadId) (a : Nat)
    (hc : sys.Consistent cfg) (hstep : sys.step cfg (Action.enter t a) = some sys1) :
    sys1.Consistent cfg ∧ sys1.state.contexts = sys.state.contexts := by
  unfold System.step at hstep
  cases hg : gl.GetContextLock cfg t (some a) sys.state with
  | blocks => simp [hg] at hstep
  | throws => simp [hg] at hstep
  | undefined => simp [hg] at hstep
  | returns p =>
    obtain ⟨g, s1⟩ := p
    simp only [hg, Option.some.injEq] at hstep
    subst hstep
    obtain ⟨hctx, hreq, hmut⟩ := GetContextLock_returns_cases hg
    refine ⟨⟨?_, ?_, ?_⟩, hctx⟩
    · intro t1 p hp hown
      by_cases htt : t1 = t
      · subst htt
        simp only [Function.update_same, List.mem_cons] at hp
        rcases hmut with ⟨hgo, hm⟩ | ⟨_, hl⟩
        · rcases hp with hp | hp
          · subst hp; simp [hgo] at hown
          · simp only [hm]; exact hc.owner_of_owning t1 p hp hown
        · exact GlobalMutex.owner_of_lock hl
      · simp only [Function.update_noteq htt] at hp
        have hold := hc.owner_of_owning t1 p hp hown
        rcases hmut with ⟨_, hm⟩ | ⟨_, hl⟩
        · simp only [hm]; exact hold
        · exfalso
          have : sys.state.globalMutex.lock t = Outcome.blocks :=
            (GlobalMutex.lock_blocks_iff t _).2 ⟨t1, hold, htt⟩
          rw [this] at hl; cases hl
    · intro t1 p hp hr
      rw [requiresLock_congr cfg _ hctx] at hr
      by_cases htt : t1 = t
      · subst htt
        simp only [Function.update_same, List.mem_cons] at hp
        rcases hp with hp | hp
        · subst hp; exact hreq hr
        · exact hc.owning_of_required t1 p hp hr
      · simp only [Function.update_noteq htt] at hp
        exact hc.owning_of_required t1 p hp hr
    · intro o ho
      rcases hmut with ⟨hgo, hm⟩ | ⟨hgo, hl⟩
      · simp only [hm] at ho ⊢
        by_cases hot : o = t
        · subst hot
          simp only [Function.update_same, List.filter_cons, hgo, Bool.false_eq_true, if_false]
          exact hc.count_eq o ho
        · simp only [Function.update_noteq hot]
          exact hc.count_eq o ho
      · have hown1 := GlobalMutex.owner_of_lock hl
        rw [hown1] at ho
        injection ho with ho
        subst ho
        simp only [Function.update_same, List.filter_cons, hgo, if_true, List.length_cons]
        rcases GlobalMutex.lock_cases hl with ⟨hnone, hm1⟩ | ⟨hsome, _, hm1⟩
        · have hempty : (sys.guards t).filter (fun p => p.2.owns) = [] := by
            rw [List.filter_eq_nil_iff]
            intro p hp hpo
            have := hc.owner_of_owning t p hp hpo
            rw [hnone] at this; cases this
          rw [hm1, hempty]; rfl
        · rw [hm1]
          simp only
          rw [hc.count_eq t hsome]

/-- A partial effect inside a call keeps the system consistent and the table of
contexts. -/
theorem System.consistent_mutate (cfg : BuildConfig) {sys sys1 : System} (t : ThreadId) (a : Nat)
    (hc : sys.Consistent cfg) (hstep : sys.step cfg (Action.mutate t a) = some sys1) :
    sys1.Consistent cfg ∧ sys1.state.contexts = sys.state.contexts := by
  unfold System.step at hstep
  by_cases hin : sys.inCall t a = true
  · simp only [hin, if_true, Option.some.injEq] at hstep
    subst hstep
    exact ⟨⟨hc.owner_of_owning, hc.owning_of_required, hc.count_eq⟩, rfl⟩
  · simp [hin] at hstep

/-- Leaving a call keeps the system consistent and the table of contexts. -/
theorem System.consistent_leave (cfg : BuildConfig) {sys sys1 : System} (t : ThreadId)
    (hc : sys.Consistent cfg) (hstep : sys.step cfg (Action.leave t) = some sys1) :
    sys1.Consistent cfg ∧ sys1.state.contexts = sys.state.contexts := by
  unfold System.step at hstep
  cases hgs : sys.guards t with
  | nil => simp [hgs] at hstep
  | cons top rest =>
    obtain ⟨b, g⟩ := top
    simp only [hgs] at hstep
    cases hd : g.destroy t sys.state with
    | blocks => simp [hd] at hstep
    | throws => simp [hd] at hstep
    | undefined => simp [hd] at hstep
    | returns s1 =>
      simp only [hd, Option.some.injEq] at hstep
      subst hstep
      obtain ⟨hctx, hmut⟩ := UniqueLock.destroy_returns_cases hd
      have hrest : ∀ p, p ∈ rest → p ∈ sys.guards t := by
        intro p hp; rw [hgs]; exact List.mem_cons_of_mem _ hp
      refine ⟨⟨?_, ?_, ?_⟩, hctx⟩
      · intro t1 p hp hown
        by_cases htt : t1 = t
        · subst htt
          simp only [Function.update_same] at hp
          have hold := hc.owner_of_owning t1 p (hrest p hp) hown
          rcases hmut with ⟨_, hm⟩ | ⟨hgo, hu⟩
          · simp only [hm]; exact hold
          · obtain ⟨_, hcase⟩ := GlobalMutex.unlock_cases hu
            rcases hcase with ⟨hle, _⟩ | ⟨_, hm1⟩
            · exfalso
              have hcnt := hc.count_eq t1 hold
              rw [hgs] at hcnt
              simp only [List.filter_cons, hgo, if_true, List.length_cons] at hcnt
              have hpos : 0 < (rest.filter (fun p => p.2.owns)).length :=
                List.length_pos_of_mem (List.mem_filter.2 ⟨hp, hown⟩)
              omega
            · rw [hm1]; exact hold
        · simp only [Function.update_noteq htt] at hp
          have hold := hc.owner_of_owning t1 p hp hown
          rcases hmut with ⟨_, hm⟩ | ⟨_, hu⟩
          · simp only [hm]; exact hold
          · exfalso
            obtain ⟨hown1, _⟩ := GlobalMutex.unlock_cases hu
            rw [hown1] at hold
            injection hold with hold
            exact htt hold.symm
      · intro t1 p hp hr
        rw [requiresLock_congr cfg _ hctx] at hr
        by_cases htt : t1 = t
        · subst htt
          simp only [Function.update_same] at hp
          exact hc.owning_of_required t1 p (hrest p hp) hr
        · simp only [Function.update_noteq htt] at hp
          exact hc.owning_of_required t1 p hp hr
      · intro o ho
        rcases hmut with ⟨hgo, hm⟩ | ⟨hgo, hu⟩
        · simp only [hm] at ho ⊢
          have hcnt := hc.count_eq o ho
          by_cases hot : o = t
          · subst hot
            rw [hgs] at hcnt
            simp only [List.filter_cons, hgo, Bool.false_eq_true, if_false] at hcnt
            simp only [Function.update_same]
            exact hcnt
          · simp only [Function.update_noteq hot]
            exact hcnt
        · obtain ⟨hown1, hcase⟩ := GlobalMutex.unlock_cases hu
          rcases hcase with ⟨_, hm1⟩ | ⟨hgt, hm1⟩
          · rw [hm1] at ho; cases ho
          · rw [hm1] at ho
            simp only [hown1] at ho
            injection ho with ho
            subst ho
            have hcnt := hc.count_eq t hown1
            rw [hgs] at hcnt
            simp only [List.filter_cons, hgo, if_true, List.length_cons] at hcnt
            simp only [Function.update_same]
            rw [hm1]
            simp only
            omega

/-- Every step keeps the system consistent and the table of contexts. -/
theorem System.consistent_step (cfg : BuildConfig) {sys sys1 : System} (act : Action)
    (hc : sys.Consistent cfg) (hstep : sys.step cfg act = some sys1) :
    sys1.Consistent cfg ∧ sys1.state.contexts = sys.state.contexts := by
  cases act with
  | enter t a => exact System.consistent_enter cfg t a hc hstep
  | mutate t a => exact System.consistent_mutate cfg t a hc hstep
  | leave t => exact System.consistent_leave cfg t hc hstep

/-- Every interleaving keeps the system consistent and the table of contexts. -/
theorem System.consistent_run (cfg : BuildConfig) (acts : List Action) :
    ∀ {sys sys1 : System}, sys.Consistent cfg → System.run cfg acts sys = some sys1 →
      sys1.Consistent cfg ∧ sys1.state.contexts = sys.state.contexts := by
  induction acts with
  | nil =>
    intro sys sys1 hc hrun
    simp only [System.run, Option.some.injEq] at hrun
    subst hrun
    exact ⟨hc, rfl⟩
  | cons act rest ih =>
    intro sys sys1 hc hrun
    simp only [System.run] at hrun
    cases hs : sys.step cfg act with
    | none => simp [hs] at hrun
    | some sys2 =>
      simp only [hs] at hrun
      obtain ⟨hc2, hctx2⟩ := System.consistent_step cfg act hc hs
      obtain ⟨hc1, hctx1⟩ := ih hc2 hrun
      exact ⟨hc1, hctx1.trans hctx2⟩

end angle

namespace angle

/-- While another thread owns the global mutex, `GetContextLock` on a context that
requires the lock blocks. -/
theorem GetContextLock_blocks_of_owned {cfg : BuildConfig} {t o : ThreadId} {a : Nat} {s : State}
    (hreq : requiresLock cfg (some a) s = true) (ho : s.globalMutex.owner = some o)
    (hne : o ≠ t) : gl.GetContextLock cfg t (some a) s = Outcome.blocks := by
  have hl : s.globalMutex.lock t = Outcome.blocks :=
    (GlobalMutex.lock_blocks_iff t _).2 ⟨o, ho, hne⟩
  cases hF : cfg.ANGLE_FORCE_CONTEXT_CHECK_EVERY_CALL with
  | true =>
    simp [gl.GetContextLock, hF, UniqueLock.acquire, lockGlobalMutex, egl.GetGlobalMutex, hl]
  | false =>
    have hsh : (s.contexts a).isShared = true := by simpa [requiresLock, hF] using hreq
    simp [gl.GetContextLock, hF, hsh, UniqueLock.acquire, lockGlobalMutex, egl.GetGlobalMutex,
      hl]

/-- In a consistent system, a thread inside a call on a context that requires the
lock owns the global mutex. -/
theorem System.owner_of_inCall {cfg : BuildConfig} {sys : System} (hc : sys.Consistent cfg)
    {t : ThreadId} {a : Nat} (hreq : requiresLock cfg (some a) sys.state = true)
    (hin : sys.inCall t a = true) : sys.state.globalMutex.owner = some t := by
  unfold System.inCall at hin
  rw [List.any_eq_true] at hin
  obtain ⟨p, hp, hpa⟩ := hin
  have hpa1 : p.1 = a := by simpa using hpa
  have hown : p.2.owns = true := hc.owning_of_required t p hp (by rw [hpa1]; exact hreq)
  exact hc.owner_of_owning t p hp hown

/-- C10: in every state reached by any interleaving of the threads' steps from a
system at rest, where each thread performs the partial effects of its call
only inside the bracket of the guard returned by `GetContextLock`: when a
thread `t1` is inside its call on a shared context, it owns the global mutex;
no other thread is inside a call on that context at the same instant; and no
other thread can then enter a call on that context (its `GetContextLock`
blocks) or perform a partial effect on it, so the effects of the two calls
never interleave. -/
theorem shared_context_calls_serialized (cfg : BuildConfig) (sys0 sys : System)
    (acts : List Action) (hrest : sys0.atRest)
    (hrun : System.run cfg acts sys0 = some sys)
    (a : Nat) (hshared : (sys0.state.contexts a).isShared = true)
    (t1 t2 : ThreadId) (h1 : sys.inCall t1 a = true) :
    sys.state.globalMutex.owner = some t1 ∧
    (sys.inCall t2 a = true → t2 = t1) ∧
    (t2 ≠ t1 →
      gl.GetContextLock cfg t2 (some a) sys.state = Outcome.blocks ∧
      sys.step cfg (Action.enter t2 a) = none ∧
      sys.step cfg (Action.mutate t2 a) = none) := by
  obtain ⟨hc, hctx⟩ :=
    System.consistent_run cfg acts (System.consistent_of_atRest cfg hrest) hrun
  have hreq : requiresLock cfg (some a) sys.state = true := by
    simp [requiresLock, hctx, hshared]
  have hown1 := System.owner_of_inCall hc hreq h1
  have hexcl : sys.inCall t2 a = true → t2 = t1 := by
    intro h2
    have hown2 := System.owner_of_inCall hc hreq h2
    rw [hown1] at hown2
    injection hown2 with h
    exact h.symm
  refine ⟨hown1, hexcl, ?_⟩
  intro hne
  have hblocks := GetContextLock_blocks_of_owned (t := t2) hreq hown1 (fun h => hne h.symm)
  refine ⟨hblocks, ?_, ?_⟩
  · simp only [System.step, hblocks]
  · have hnot : sys.inCall t2 a = false := by
      cases h : sys.inCall t2 a with
      | false => rfl
      | true => exact absurd (hexcl h) hne
    simp [System.step, hnot]

/-- C10 at the sample system once thread 1 has entered its call on the shared
context 3: thread 2 is not inside a call on it, its `GetContextLock` blocks, and
it can neither enter nor perform an effect on context 3. -/
theorem shared_context_calls_serialized_witness :
    System.run androidConfig [Action.enter 1 3] sampleSystem = some sampleSystemInCall ∧
    sampleSystemInCall.state.globalMutex.owner = some 1 ∧
    (sampleSystemInCall.inCall 2 3 = true → 2 = 1) ∧
    ((2 : ThreadId) ≠ 1 →
      gl.GetContextLock androidConfig 2 (some 3) sampleSystemInCall.state = Outcome.blocks ∧
      sampleSystemInCall.step androidConfig (Action.enter 2 3) = none ∧
      sampleSystemInCall.step androidConfig (Action.mutate 2 3) = none) :=
  ⟨rfl,
   shared_context_calls_serialized androidConfig sampleSystem sampleSystemInCall
     [Action.enter 1 3] ⟨rfl, fun _ => rfl⟩ rfl 3 (by decide) 1 2 (by decide)⟩

end angle
